import Mathlib

/-!
# Verification of the sheshmfs beta/risk-metrics calculator

Shallow embedding of the numeric core of `src/sheshmfs.py` (a Streamlit
dashboard computing beta, alpha, R², correlation, volatility, Sharpe ratio
and a risk classification for portfolios / mutual funds).

Modelling conventions:
* Prices, returns and all metrics are embedded as exact rationals `ℚ`
  (the Python code uses IEEE floats; the spec's tolerance statements are
  implied by the exact equalities proved here).
* A return series keyed by timestamps is `List (ℕ × ℚ)` (timestamp, value),
  mirroring a pandas `Series` with a datetime index.
* `scipy.stats.linregress` raises `ValueError` when all x-values are
  identical; `calculate_beta` wraps the call in `try/except` and converts
  any failure into the `(None, None, None)` return.  The three distinct
  failure exits of `calculate_beta` (short input, fewer than 10 overlapping
  points, caught regression error on a constant benchmark) are modelled as
  distinct constructors of `BetaFailure`; success is `Except.ok`.
* `linregress` divides by `sqrt(ssxm * ssym)` when computing the Pearson r;
  since that square root is irrational in general, the model takes the
  value of `sqrt(ssxm * ssym)` as an explicit oracle argument `sq`.  Every
  theorem below either holds for all values of `sq` or constrains it by the
  defining property of the square root.
-/

/-- Arithmetic mean, `numpy`/`pandas` `.mean()`: sum divided by length. -/
def mean (l : List ℚ) : ℚ := l.sum / l.length

/-- Population variance (`np.cov(x, y, bias=1)` diagonal): mean squared
deviation from the mean, as used inside `scipy.stats.linregress`. -/
def popVar (l : List ℚ) : ℚ :=
  (l.map (fun x => (x - mean l) ^ 2)).sum / l.length

/-- Population covariance of two equal-length lists
(`np.cov(x, y, bias=1)` off-diagonal), as used inside `linregress`. -/
def popCov (x y : List ℚ) : ℚ :=
  ((x.zip y).map (fun p => (p.1 - mean x) * (p.2 - mean y))).sum / x.length

/-- `True` iff every element of the list equals the head (numpy
`amax(x) == amin(x)` for a nonempty list): the degenerate-input test of
`scipy.stats.linregress`. -/
def isConstantList (l : List ℚ) : Bool :=
  match l with
  | [] => true
  | h :: t => t.all (fun v => decide (v = h))

/-- Clamp a rational into `[-1, 1]`, as `linregress` does to the computed
Pearson r to protect against floating-point overshoot. -/
def clampUnit (r : ℚ) : ℚ :=
  if r > 1 then 1 else if r < -1 then -1 else r

/-- `scipy.stats.linregress(x, y)` restricted to the fields the source
uses: returns `(slope, r_value)`.

Mirrors the scipy implementation: it raises `ValueError` when all x-values
are identical (modelled as `Except.error ()`); otherwise
`slope = ssxym / ssxm` and `r = ssxym / sqrt(ssxm * ssym)` (`0` when either
variance vanishes), clamped into `[-1, 1]`.  `sq` is the oracle value of
`sqrt(ssxm * ssym)`; see the file header. -/
def linregress (sq : ℚ) (x y : List ℚ) : Except Unit (ℚ × ℚ) :=
  if isConstantList x then .error ()
  else
    let ssxm := popVar x
    let ssym := popVar y
    let ssxym := popCov x y
    let r := if ssxm = 0 ∨ ssym = 0 then 0 else clampUnit (ssxym / sq)
    .ok (ssxym / ssxm, r)

/-- Inner join of two timestamp-keyed series on their timestamps, keeping
the left series' order: the embedding of
`returns_df.join(benchmark_df, how='inner')` followed by `.dropna()`
(values are total rationals here, so `dropna` removes nothing). -/
def align (a b : List (ℕ × ℚ)) : List (ℕ × ℚ × ℚ) :=
  a.filterMap (fun p =>
    match List.lookup p.1 b with
    | some y => some (p.1, p.2, y)
    | none => none)

/-- The three failure exits of `calculate_beta`, one per `return None, None,
None` site in the source: the short-input guard (`len < 2`), the
fewer-than-10-overlapping-points warning, and the `except` clause that
catches the `ValueError` scipy raises on a constant benchmark. -/
inductive BetaFailure where
  | shortInput
  | insufficientData
  | degenerateBenchmark
  deriving DecidableEq, Repr

/-- `calculate_beta(returns, benchmark_returns)`: aligns the two series by
timestamp (inner join), requires at least 10 overlapping points, regresses
asset returns on benchmark returns, and returns
`(beta, r_squared, correlation) = (slope, r_value ** 2, r_value)`.
`sq` is the square-root oracle passed through to `linregress`. -/
def calculate_beta (sq : ℚ) (returns benchmark_returns : List (ℕ × ℚ)) :
    Except BetaFailure (ℚ × ℚ × ℚ) :=
  if returns.length < 2 ∨ benchmark_returns.length < 2 then
    .error .shortInput
  else
    let merged := align returns benchmark_returns
    if merged.length < 10 then
      .error .insufficientData
    else
      match linregress sq (merged.map (fun r => r.2.2))
          (merged.map (fun r => r.2.1)) with
      | .error _ => .error .degenerateBenchmark
      | .ok (slope, r_value) => .ok (slope, r_value ^ 2, r_value)

/-- `calculate_returns(prices)` without the timestamp bookkeeping:
`prices.pct_change().dropna() * 100`, i.e. the percentage change between
consecutive prices, with the undefined first entry dropped. -/
def calculate_returns (prices : List ℚ) : List ℚ :=
  (prices.zip prices.tail).map (fun pc => (pc.2 - pc.1) / pc.1 * 100)

/-- Outcome of the beta risk classification shown by both tabs. -/
inductive RiskLevel where
  | defensive
  | moderate
  | aggressive
  deriving DecidableEq, Repr

/-- The risk classification used identically in tab 1 and tab 2:
`if beta < 0.8: low risk / elif beta < 1.2: moderate / else: high`. -/
def classify (beta : ℚ) : RiskLevel :=
  if beta < 0.8 then .defensive
  else if beta < 1.2 then .moderate
  else .aggressive

/-- Sample variance (`pandas .std() ** 2` with its default `ddof=1`):
squared deviations divided by `n - 1`. -/
def sampleVar (l : List ℚ) : ℚ :=
  (l.map (fun x => (x - mean l) ^ 2)).sum / (l.length - 1 : ℕ)

/-- The Sharpe-ratio expression shared by both tabs:
`sharpe_ratio = (mean_return - 5) / volatility if volatility > 0 else 0`,
where `mean_return` is the annualized mean return and `volatility` the
annualized standard deviation computed just before. -/
def sharpe_ratio (mean_return volatility : ℚ) : ℚ :=
  if volatility > 0 then (mean_return - 5) / volatility else 0

/-- Tab 1's alpha (daily data): `mean_return = portfolio.mean() * 252`,
`mean_bench = benchmark.mean() * 252`, `alpha = mean_return - beta * mean_bench`. -/
def alpha_tab1 (portfolio_returns benchmark_returns : List ℚ) (beta : ℚ) : ℚ :=
  mean portfolio_returns * 252 - beta * (mean benchmark_returns * 252)

/-- Tab 2's alpha (monthly data): `mean_return = nav_returns.mean() * 12`,
`mean_bench = benchmark.mean() * 12`, `alpha = mean_return - beta * mean_bench`. -/
def alpha_tab2 (nav_returns benchmark_returns : List ℚ) (beta : ℚ) : ℚ :=
  mean nav_returns * 12 - beta * (mean benchmark_returns * 12)

/-- Modelled from the spec's `computeAlpha` contract: the same formula with
`periodsPerYear` as an explicit caller-supplied parameter. -/
def computeAlpha (assetReturns benchmarkReturns : List ℚ)
    (beta periodsPerYear : ℚ) : ℚ :=
  mean assetReturns * periodsPerYear - beta * (mean benchmarkReturns * periodsPerYear)

/-- A holding as consumed by `calculate_dynamic_nav`: the
`current_price` and `quantity` fields, each possibly `None`. -/
structure Holding where
  current_price : Option ℚ
  quantity : Option ℚ

/-- Python truthiness of an optional number: `None`, `0` and `0.0` are
falsy, everything else truthy. -/
def truthy : Option ℚ → Bool
  | none => false
  | some x => decide (x ≠ 0)

/-- `calculate_dynamic_nav(holdings_data, total_units)`: sums
`current_price * quantity` over holdings whose price and quantity are both
truthy, then `nav = total_value / total_units if total_units > 0 else 0`.
Returns `(nav, total_value)`. -/
def calculate_dynamic_nav (holdings_data : List Holding)
    (total_units : ℚ) : ℚ × ℚ :=
  let total_value :=
    (holdings_data.filterMap (fun h =>
      if truthy h.current_price && truthy h.quantity then
        some ((h.current_price.getD 0) * (h.quantity.getD 0))
      else none)).sum
  let nav := if total_units > 0 then total_value / total_units else 0
  (nav, total_value)

/-! ## Concrete witness data -/

/-- Ten-point series with values `1..10` at timestamps `0..9` (C1 witness). -/
def seriesC1 : List (ℕ × ℚ) :=
  [(0, 1), (1, 2), (2, 3), (3, 4), (4, 5), (5, 6), (6, 7), (7, 8), (8, 9), (9, 10)]

/-- The value column of `seriesC1` (C1 witness). -/
def valsC1 : List ℚ := [1, 2, 3, 4, 5, 6, 7, 8, 9, 10]

/-- Ten-point asset return series for the C3 witness. -/
def seriesC3 : List (ℕ × ℚ) :=
  [(0, 1), (1, 2), (2, 3), (3, 4), (4, 5), (5, 6), (6, 7), (7, 8), (8, 9), (9, 10)]

/-- Ten-point constant benchmark series (every return `5`) for the C3 witness. -/
def benchC3 : List (ℕ × ℚ) :=
  [(0, 5), (1, 5), (2, 5), (3, 5), (4, 5), (5, 5), (6, 5), (7, 5), (8, 5), (9, 5)]

/-! ## Helper lemmas -/

lemma isConstantList_of_forall_eq (xs : List ℚ) (c : ℚ)
    (h : ∀ v ∈ xs, v = c) : isConstantList xs = true := by
  cases xs with
  | nil => rfl
  | cons a t =>
    simp only [isConstantList, List.all_eq_true, decide_eq_true_eq]
    intro v hv
    rw [h v (List.mem_cons_of_mem _ hv), h a (List.mem_cons_self _ _)]

/-! ## C1: rSquared equals correlation squared -/

/-- C1: whenever `calculate_beta` succeeds, the returned `r_squared` is
exactly the square of the returned `correlation` (the source sets
`r_squared = r_value ** 2` and `correlation = r_value`); exact equality in
the rational model, hence within any floating-point tolerance. -/
theorem rSquared_eq_correlation_sq (sq : ℚ) (returns benchmark : List (ℕ × ℚ))
    (beta r2 corr : ℚ)
    (h : calculate_beta sq returns benchmark = .ok (beta, r2, corr)) :
    r2 = corr ^ 2 := by
  simp only [calculate_beta] at h
  split at h
  · exact absurd h (by simp)
  · split at h
    · exact absurd h (by simp)
    · split at h
      · exact absurd h (by simp)
      · rename_i slope r_value heq
        simp only [Except.ok.injEq, Prod.mk.injEq] at h
        obtain ⟨-, h2, h3⟩ := h
        rw [← h2, ← h3]

/-- C1 witness: a concrete successful run (asset = benchmark = returns
`1..10` over ten common timestamps, square-root oracle `33/4` =
`sqrt(Var·Var)`) returns `(beta, r_squared, correlation) = (1, 1, 1)`, and
the theorem applied there gives `1 = 1 ^ 2`. -/
theorem rSquared_eq_correlation_sq_witness :
    calculate_beta (33/4) seriesC1 seriesC1 = .ok (1, 1, 1) ∧ (1 : ℚ) = 1 ^ 2 := by
  have hx : (align seriesC1 seriesC1).map (fun r => r.2.2) = valsC1 := by rfl
  have hy : (align seriesC1 seriesC1).map (fun r => r.2.1) = valsC1 := by rfl
  have hn : ¬ ((align seriesC1 seriesC1).length < 10) := by decide
  have hv : popVar valsC1 = 33/4 := by norm_num [popVar, mean, valsC1]
  have hc : popCov valsC1 valsC1 = 33/4 := by norm_num [popCov, mean, valsC1]
  have hcon : isConstantList valsC1 = false := by rfl
  have hlin : linregress (33/4) valsC1 valsC1 = .ok (1, 1) := by
    rw [linregress, hcon]
    simp only [Bool.false_eq_true, if_false, hv, hc]
    norm_num [clampUnit]
  have hok : calculate_beta (33/4) seriesC1 seriesC1 = .ok (1, 1, 1) := by
    rw [calculate_beta,
      if_neg (by decide : ¬ (seriesC1.length < 2 ∨ seriesC1.length < 2))]
    simp only [if_neg hn, hx, hy, hlin]
    norm_num
  exact ⟨hok, rSquared_eq_correlation_sq (33/4) seriesC1 seriesC1 1 1 1 hok⟩

/-! ## C2: fewer than 10 overlapping samples refuses to compute -/

/-- C2: whenever the inner-join alignment of the two series yields fewer
than 10 common samples, `calculate_beta` fails (no numeric beta is
returned); and when both inputs pass the short-input guard (length ≥ 2),
the failure is precisely the insufficient-data exit (the source's
"Only n overlapping data points found" warning followed by
`return None, None, None`). -/
theorem beta_insufficient_overlap_fails (sq : ℚ)
    (returns benchmark : List (ℕ × ℚ))
    (hlt : (align returns benchmark).length < 10) :
    (∃ e, calculate_beta sq returns benchmark = .error e) ∧
    (2 ≤ returns.length → 2 ≤ benchmark.length →
      calculate_beta sq returns benchmark = .error .insufficientData) := by
  constructor
  · by_cases hshort : returns.length < 2 ∨ benchmark.length < 2
    · exact ⟨.shortInput, by simp only [calculate_beta]; rw [if_pos hshort]⟩
    · exact ⟨.insufficientData,
        by simp only [calculate_beta]; rw [if_neg hshort, if_pos hlt]⟩
  · intro h2 h3
    simp only [calculate_beta]
    rw [if_neg (by omega : ¬ (returns.length < 2 ∨ benchmark.length < 2)),
      if_pos hlt]

/-- C2 witness: two concrete series of length 2 (≥ the short-input guard)
with only 2 overlapping timestamps fail with the insufficient-data error. -/
theorem beta_insufficient_overlap_fails_witness :
    calculate_beta 1 [(0, 1), (1, 2)] [(0, 1), (1, 2)]
      = .error .insufficientData :=
  (beta_insufficient_overlap_fails 1 [(0, 1), (1, 2)] [(0, 1), (1, 2)]
    (by decide)).2 (by decide) (by decide)

/-! ## C9: the short-input guard comes first -/

/-- C9: if either input series has fewer than 2 elements, `calculate_beta`
fails through the initial guard (`len(returns) < 2 or
len(benchmark_returns) < 2`), before alignment and before the 10-sample
minimum; the guard's exit is distinct from the insufficient-data exit. -/
theorem beta_short_input_guard (sq : ℚ) (returns benchmark : List (ℕ × ℚ))
    (h : returns.length < 2 ∨ benchmark.length < 2) :
    calculate_beta sq returns benchmark = .error .shortInput ∧
    BetaFailure.shortInput ≠ BetaFailure.insufficientData := by
  refine ⟨?_, by simp⟩
  simp only [calculate_beta]
  rw [if_pos h]

/-- C9 witness: a single-element asset series (against a 10-point
benchmark) exits through the short-input guard. -/
theorem beta_short_input_guard_witness :
    calculate_beta 1 [(0, 1)] seriesC1 = .error .shortInput ∧
    BetaFailure.shortInput ≠ BetaFailure.insufficientData :=
  beta_short_input_guard 1 [(0, 1)] seriesC1 (by decide)

/-! ## C3: constant benchmark is refused -/

/-- C3: when the aligned benchmark column is constant (zero variance) and
there are at least 10 aligned samples (with both inputs past the
short-input guard), `calculate_beta` fails through the caught
`ValueError` of `scipy.stats.linregress` ("all x values are identical"),
for every value of the square-root oracle — in particular no numeric
beta (`0`, or anything else) is returned. -/
theorem beta_constant_benchmark_fails (sq : ℚ)
    (returns benchmark : List (ℕ × ℚ)) (c : ℚ)
    (h2 : 2 ≤ returns.length) (h3 : 2 ≤ benchmark.length)
    (h10 : ¬ ((align returns benchmark).length < 10))
    (hconst : ∀ p ∈ align returns benchmark, p.2.2 = c) :
    calculate_beta sq returns benchmark = .error .degenerateBenchmark := by
  have hcon : isConstantList ((align returns benchmark).map (fun r => r.2.2))
      = true := by
    refine isConstantList_of_forall_eq _ c ?_
    intro v hv
    obtain ⟨p, hp, rfl⟩ := List.mem_map.1 hv
    exact hconst p hp
  simp only [calculate_beta]
  rw [if_neg (by omega : ¬ (returns.length < 2 ∨ benchmark.length < 2)),
    if_neg h10, linregress, hcon]
  simp

/-- C3 witness: a varying 10-point asset series against the constant
benchmark `[5,5,...,5]` on the same 10 timestamps fails with the
degenerate-benchmark error. -/
theorem beta_constant_benchmark_fails_witness :
    calculate_beta 1 seriesC3 benchC3 = .error .degenerateBenchmark :=
  beta_constant_benchmark_fails 1 seriesC3 benchC3 5
    (by decide) (by decide) (by decide) (by decide)

/-! ## C4: alignment is a key-based inner join -/

lemma lookup_eq_some_of_mem (b : List (ℕ × ℚ)) (t : ℕ) (y : ℚ)
    (hnd : (b.map Prod.fst).Nodup) (h : (t, y) ∈ b) :
    List.lookup t b = some y := by
  induction b with
  | nil => simp at h
  | cons p bs ih =>
    obtain ⟨k, v⟩ := p
    simp only [List.map_cons, List.nodup_cons] at hnd
    obtain ⟨hk, hnd2⟩ := hnd
    rcases List.mem_cons.1 h with heq | hmem
    · injection heq with h1 h2
      subst h1; subst h2
      simp [List.lookup]
    · have hne : t ≠ k := by
        rintro rfl
        exact hk (List.mem_map.2 ⟨(t, y), hmem, rfl⟩)
      simp only [List.lookup, beq_false_of_ne hne]
      exact ih hnd2 hmem

lemma mem_of_lookup_eq_some (b : List (ℕ × ℚ)) (t : ℕ) (y : ℚ)
    (h : List.lookup t b = some y) : (t, y) ∈ b := by
  induction b with
  | nil => simp [List.lookup] at h
  | cons p bs ih =>
    obtain ⟨k, v⟩ := p
    by_cases hkt : t = k
    · subst hkt
      simp only [List.lookup, beq_self_eq_true] at h
      injection h with h1
      subst h1
      exact List.mem_cons_self _ _
    · simp only [List.lookup, beq_false_of_ne hkt] at h
      exact List.mem_cons_of_mem _ (ih h)

lemma align_keys_sublist (a b : List (ℕ × ℚ)) :
    ((align a b).map Prod.fst).Sublist (a.map Prod.fst) := by
  induction a with
  | nil => simp [align]
  | cons p a2 ih =>
    simp only [align] at ih ⊢
    rw [List.filterMap_cons]
    cases hl : List.lookup p.1 b with
    | none => exact ih.cons p.1
    | some y => exact ih.cons₂ p.1

/-- C4: alignment is an inner join on timestamps, not positional pairing:
(i) a triple `(t, x, y)` appears in the aligned list exactly when `(t, x)`
belongs to the asset series and `(t, y)` to the benchmark series (keys on
the benchmark side unique, as a pandas index); (ii) chronological order is
preserved (strictly increasing timestamps stay strictly increasing);
(iii) on the spec's example — timestamps `{1,2,3,5}` against `{1,2,4,5}` —
the join keeps exactly timestamps `1, 2, 5` in order with the matching
value pairs. -/
theorem align_inner_join (a b : List (ℕ × ℚ))
    (hbnd : (b.map Prod.fst).Nodup)
    (hsort : (a.map Prod.fst).Pairwise (· < ·)) :
    (∀ t x y, (t, x, y) ∈ align a b ↔ ((t, x) ∈ a ∧ (t, y) ∈ b)) ∧
    ((align a b).map Prod.fst).Pairwise (· < ·) ∧
    align [(1, 10), (2, 20), (3, 30), (5, 50)] [(1, 1), (2, 2), (4, 4), (5, 5)]
      = [(1, 10, 1), (2, 20, 2), (5, 50, 5)] := by
  refine ⟨?_, List.Pairwise.sublist (align_keys_sublist a b) hsort, by rfl⟩
  intro t x y
  constructor
  · intro h
    obtain ⟨p, hp, hf⟩ := List.mem_filterMap.1 h
    obtain ⟨k, v⟩ := p
    cases hl : List.lookup k b with
    | none => rw [hl] at hf; exact absurd hf (by simp)
    | some y2 =>
      rw [hl] at hf
      injection hf with h1
      injection h1 with ht h2
      injection h2 with hx hy
      subst ht; subst hx; subst hy
      exact ⟨hp, mem_of_lookup_eq_some b _ _ hl⟩
  · rintro ⟨ha, hb⟩
    refine List.mem_filterMap.2 ⟨(t, x), ha, ?_⟩
    rw [lookup_eq_some_of_mem b t y hbnd hb]

/-- C4 witness: the theorem applied to the spec's concrete example, plus
the membership characterization instantiated at timestamp 5. -/
theorem align_inner_join_witness :
    (5, 50, 5) ∈ align [(1, 10), (2, 20), (3, 30), (5, 50)]
      [(1, 1), (2, 2), (4, 4), (5, 5)] ∧
    align [(1, 10), (2, 20), (3, 30), (5, 50)] [(1, 1), (2, 2), (4, 4), (5, 5)]
      = [(1, 10, 1), (2, 20, 2), (5, 50, 5)] := by
  have H := align_inner_join [(1, 10), (2, 20), (3, 30), (5, 50)]
    [(1, 1), (2, 2), (4, 4), (5, 5)] (by decide) (by decide)
  exact ⟨(H.1 5 50 5).2 ⟨by norm_num, by norm_num⟩, H.2.2⟩

/-! ## C5: returns are percentage differences of consecutive prices -/

/-- C5: for a nonempty price series, the derived return series has exactly
one element fewer than the price series (the undefined first return is
dropped), and its `i`-th entry is
`(price[i+1] - price[i]) / price[i] * 100`. -/
theorem calculate_returns_pct_change (prices : List ℚ) (hne : prices ≠ []) :
    (calculate_returns prices).length + 1 = prices.length ∧
    ∀ i (hi : i < (calculate_returns prices).length),
      (calculate_returns prices).get ⟨i, hi⟩ =
        (prices.getD (i + 1) 0 - prices.getD i 0) / prices.getD i 0 * 100 := by
  have hlen0 : 0 < prices.length := List.length_pos.2 hne
  have hlen : (calculate_returns prices).length = prices.length - 1 := by
    simp only [calculate_returns, List.length_map, List.length_zip,
      List.length_tail]
    omega
  refine ⟨by omega, ?_⟩
  intro i hi
  have hi0 : i < prices.length := by omega
  have hi1 : i + 1 < prices.length := by omega
  rw [List.get_eq_getElem]
  simp only [calculate_returns, List.getElem_map, List.getElem_zip,
    List.getElem_tail, List.getD_eq_getElem prices 0 hi0,
    List.getD_eq_getElem prices 0 hi1]

/-- C5 witness: prices `[100, 110, 99]` give two returns, and the first is
`(110 - 100) / 100 * 100 = 10`. -/
theorem calculate_returns_pct_change_witness :
    (calculate_returns [100, 110, 99]).length + 1 = 3 ∧
    (calculate_returns [100, 110, 99]).getD 0 0 = 10 := by
  have H := calculate_returns_pct_change [100, 110, 99] (by simp)
  refine ⟨H.1, ?_⟩
  have h0 : 0 < (calculate_returns [100, 110, 99]).length := by
    have h1 := H.1
    have h3 : ([100, 110, 99] : List ℚ).length = 3 := rfl
    omega
  have h := H.2 0 h0
  rw [List.get_eq_getElem] at h
  rw [List.getD_eq_getElem _ 0 h0, h]
  norm_num [List.getD_cons_zero, List.getD_cons_succ]

/-! ## C6: risk-classification boundaries -/

/-- C6: the classification is a total pure function with half-open
boundaries: `beta < 0.8` is Defensive, `0.8 ≤ beta < 1.2` is Moderate,
`beta ≥ 1.2` is Aggressive; at the boundaries, `classify 0.8` is Moderate
and `classify 1.2` is Aggressive. -/
theorem classify_boundaries :
    (∀ beta : ℚ, beta < 0.8 → classify beta = .defensive) ∧
    (∀ beta : ℚ, 0.8 ≤ beta → beta < 1.2 → classify beta = .moderate) ∧
    (∀ beta : ℚ, 1.2 ≤ beta → classify beta = .aggressive) ∧
    classify 0.8 = .moderate ∧ classify 1.2 = .aggressive := by
  refine ⟨?_, ?_, ?_, by norm_num [classify], by norm_num [classify]⟩
  · intro beta h
    rw [classify, if_pos h]
  · intro beta h1 h2
    rw [classify, if_neg (not_lt.2 h1), if_pos h2]
  · intro beta h
    rw [classify, if_neg (not_lt.2 (le_trans (by norm_num) h)),
      if_neg (not_lt.2 h)]

/-- C6 witness: the three regimes evaluated just off and on the
boundaries. -/
theorem classify_boundaries_witness :
    classify 0.79 = .defensive ∧ classify 1.19 = .moderate ∧
    classify 1.25 = .aggressive :=
  ⟨classify_boundaries.1 0.79 (by norm_num),
   classify_boundaries.2.1 1.19 (by norm_num) (by norm_num),
   classify_boundaries.2.2.1 1.25 (by norm_num)⟩

/-! ## C7: zero volatility gives Sharpe 0 -/

lemma mean_const (l : List ℚ) (c : ℚ) (hne : l ≠ [])
    (h : ∀ x ∈ l, x = c) : mean l = c := by
  have hrep : l = List.replicate l.length c :=
    List.eq_replicate_iff.2 ⟨rfl, h⟩
  have hlen : (l.length : ℚ) ≠ 0 := by
    have := List.length_pos.2 hne
    positivity
  rw [mean, hrep]
  simp only [List.sum_replicate, List.length_replicate, nsmul_eq_mul]
  field_simp

lemma sampleVar_const (l : List ℚ) (c : ℚ) (hne : l ≠ [])
    (h : ∀ x ∈ l, x = c) : sampleVar l = 0 := by
  have hm : mean l = c := mean_const l c hne h
  have hsum : (l.map (fun x => (x - mean l) ^ 2)).sum = 0 := by
    apply List.sum_eq_zero
    intro y hy
    obtain ⟨x, hx, rfl⟩ := List.mem_map.1 hy
    rw [h x hx, hm, sub_self]
    ring
  rw [sampleVar, hsum, zero_div]

/-- C7: for a constant (hence zero-sample-variance) return stream, the
annualized volatility — the nonnegative number `v` with
`v² = sampleVar · periodsPerYear`, i.e. `std * sqrt(periods)` — is zero,
and the Sharpe expression takes its `else` branch and returns `0` (no
exception, no division). -/
theorem sharpe_zero_volatility (returns : List ℚ) (c m v p : ℚ)
    (hne : returns ≠ []) (hconst : ∀ x ∈ returns, x = c)
    (_hv0 : 0 ≤ v) (hv : v ^ 2 = sampleVar returns * p) :
    sharpe_ratio m v = 0 := by
  have h0 : sampleVar returns = 0 := sampleVar_const returns c hne hconst
  have hsq : v ^ 2 = 0 := by rw [hv, h0, zero_mul]
  have hz : v = 0 := by
    exact pow_eq_zero_iff two_ne_zero |>.1 hsq
  rw [ sharpe_ratio, hz]
  norm_num

/-- C7 witness: the constant return stream `[1, 1]` has sample variance 0,
so with volatility `v = 0` (and any annualization factor, here 252) the
Sharpe ratio is 0. -/
theorem sharpe_zero_volatility_witness : sharpe_ratio 7 0 = 0 :=
  sharpe_zero_volatility [1, 1] 1 7 0 252 (by simp)
    (by intro x hx; simpa using hx) le_rfl
    (by norm_num [sampleVar, mean])

/-! ## C8: the alpha formula and its annualization constants -/

/-- C8 counterexample: the two in-source alpha computations disagree on
identical inputs (asset mean 2, benchmark mean 1, beta 1): tab 1 produces
`252` (hard-coded 252 periods/year), tab 2 produces `12` (hard-coded 12),
so the source does not expose a single caller-supplied `periodsPerYear`
parameter. -/
theorem alpha_not_single_convention :
    alpha_tab1 [2] [1] 1 ≠ alpha_tab2 [2] [1] 1 := by
  norm_num [alpha_tab1, alpha_tab2, mean]

/-- C8 (amended): each in-source alpha computation follows the spec's
formula `mean(asset)·p − beta·mean(bench)·p`, but with `p` hard-coded at
the call site — 252 in tab 1 (daily) and 12 in tab 2 (monthly) — and the
two conventions differ. -/
theorem alpha_formula_hardcoded_periods (a b : List ℚ) (beta : ℚ) :
    alpha_tab1 a b beta = computeAlpha a b beta 252 ∧
    alpha_tab2 a b beta = computeAlpha a b beta 12 ∧
    (252 : ℚ) ≠ 12 :=
  ⟨rfl, rfl, by norm_num⟩

/-! ## C10: dynamic NAV never divides by zero -/

lemma nav_filterMap_sum_eq_map_sum (holdings : List Holding) :
    (holdings.filterMap (fun h =>
      if truthy h.current_price && truthy h.quantity then
        some ((h.current_price.getD 0) * (h.quantity.getD 0))
      else none)).sum =
    (holdings.map (fun h =>
      if truthy h.current_price && truthy h.quantity then
        (h.current_price.getD 0) * (h.quantity.getD 0)
      else 0)).sum := by
  induction holdings with
  | nil => rfl
  | cons hd tl ih =>
    rw [List.filterMap_cons, List.map_cons, List.sum_cons]
    by_cases hc : (truthy hd.current_price && truthy hd.quantity) = true
    · rw [if_pos hc, if_pos hc, List.sum_cons, ih]
    · rw [if_neg hc, if_neg hc, ih, zero_add]

/-- C10: the NAV division is guarded and the function is total: when
`total_units ≤ 0` the returned `nav` is `0` (the division never runs);
when `total_units > 0` the `nav` is the sum of `current_price * quantity`
over holdings whose price and quantity are both truthy (falsy ones are
skipped), divided by `total_units`. -/
theorem dynamic_nav_division_guarded (holdings : List Holding)
    (total_units : ℚ) :
    (total_units ≤ 0 → (calculate_dynamic_nav holdings total_units).1 = 0) ∧
    (0 < total_units → (calculate_dynamic_nav holdings total_units).1 =
      (holdings.map (fun h =>
        if truthy h.current_price && truthy h.quantity then
          (h.current_price.getD 0) * (h.quantity.getD 0)
        else 0)).sum / total_units) := by
  constructor
  · intro hle
    simp only [calculate_dynamic_nav]
    rw [if_neg (not_lt.2 hle)]
  · intro hpos
    simp only [calculate_dynamic_nav]
    rw [if_pos hpos, nav_filterMap_sum_eq_map_sum]

/-- C10 witness: holdings `[(price 10, qty 3), (price None, qty 5),
(price 2, qty 0)]` — with `total_units = 0` the nav is `0`; with
`total_units = 2` only the first holding counts and the nav is
`10·3 / 2 = 15`. -/
theorem dynamic_nav_division_guarded_witness :
    (calculate_dynamic_nav
      [⟨some 10, some 3⟩, ⟨none, some 5⟩, ⟨some 2, some 0⟩] 0).1 = 0 ∧
    (calculate_dynamic_nav
      [⟨some 10, some 3⟩, ⟨none, some 5⟩, ⟨some 2, some 0⟩] 2).1 = 15 := by
  constructor
  · exact (dynamic_nav_division_guarded
      [⟨some 10, some 3⟩, ⟨none, some 5⟩, ⟨some 2, some 0⟩] 0).1 le_rfl
  · rw [(dynamic_nav_division_guarded
      [⟨some 10, some 3⟩, ⟨none, some 5⟩, ⟨some 2, some 0⟩] 2).2 (by norm_num)]
    norm_num [truthy]
